import Mathlib

/-!
Shallow embedding of `src/app.py`: the periodic fetch/diff/persist cycle of the
agent-score poller, its rounding helper, its snapshot/log persistence, its
10-minute scheduler, and the `/status` endpoint.

Modelling conventions:
* Python floats that carry score values are embedded as exact rationals (`ℚ`);
  `Decimal(value)` applied to such a value is the identity, so
  `round_half_up` becomes exact half-away-from-zero rounding on `ℚ`.
* The JSON array returned by the upstream API is a `List RespItem`; an element
  is either not a JSON object, or an object with optional `agent_id` and
  `final_score` fields (a missing field is `none`).
* Python `dict` values keyed by strings are association lists that keep
  insertion order; inserting an existing key updates it in place, as CPython
  dictionaries do.
* Effects are passed explicitly: the HTTP GET (including `raise_for_status`
  and JSON parsing) is an `Except` input, the two file writes get success
  flags, the environment variable is an `Option String`, and the persistent
  files are a `St` record threaded through `fetch_and_save`.
-/

/-- Embeds `round_half_up` (app.py lines 19-21):
`int(Decimal(value).to_integral_value(rounding=ROUND_HALF_UP))`.
`ROUND_HALF_UP` rounds to the nearest integer with exact `.5` ties away from
zero; on an exact rational input this is `⌊value + 1/2⌋` for nonnegative
values and the mirrored expression for negative ones. -/
def round_half_up (value : ℚ) : ℤ :=
  if 0 ≤ value then ⌊value + 1/2⌋ else -⌊-value + 1/2⌋

/-- One element of the parsed JSON array: either not a JSON object
(`isinstance(item, dict)` fails), or an object whose `agent_id` and
`final_score` fields are each present or absent (`item.get(...)`). -/
inductive RespItem where
  | nonDict : RespItem
  | obj (agent_id : Option String) (final_score : Option ℚ) : RespItem
deriving DecidableEq

/-- Python `key in dict` on an insertion-ordered string-keyed dict. -/
def hasKey (m : List (String × ℤ)) (k : String) : Bool :=
  m.any (fun p => p.1 == k)

/-- Python `dict[key] = value`: update in place when the key exists
(keeping its position), otherwise append at the end. -/
def dinsert (m : List (String × ℤ)) (k : String) (v : ℤ) : List (String × ℤ) :=
  if hasKey m k then m.map (fun p => if p.1 == k then (k, v) else p)
  else m ++ [(k, v)]

/-- The `for item in data` loop of `fetch_and_save` (app.py lines 55-70),
with the loop state (`new_agents`, `total_diff`) as accumulators.
Non-dict elements and elements missing `agent_id` or `final_score` are
skipped; otherwise the rounded score is inserted into `new_agents` and, when
`agent_id not in existing`, `int_score - threshold` is added to the total. -/
def processLoop (existing : List (String × ℤ)) (threshold : ℤ)
    (new_agents : List (String × ℤ)) (total_diff : ℤ) :
    List RespItem → List (String × ℤ) × ℤ
  | [] => (new_agents, total_diff)
  | RespItem.nonDict :: rest => processLoop existing threshold new_agents total_diff rest
  | RespItem.obj none _ :: rest => processLoop existing threshold new_agents total_diff rest
  | RespItem.obj (some _) none :: rest =>
      processLoop existing threshold new_agents total_diff rest
  | RespItem.obj (some agent_id) (some score) :: rest =>
      let int_score := round_half_up (score * 100)
      processLoop existing threshold (dinsert new_agents agent_id int_score)
        (if hasKey existing agent_id then total_diff
         else total_diff + (int_score - threshold)) rest

/-- The loop of app.py lines 52-70 started from an empty `new_agents` dict and
a zero running total; returns the new snapshot and the cycle's `total_diff`. -/
def processItems (existing : List (String × ℤ)) (threshold : ℤ)
    (data : List RespItem) : List (String × ℤ) × ℤ :=
  processLoop existing threshold [] 0 data

/-- Contribution of a single response element to `total_diff`: zero for
skipped elements and for identifiers already present in `existing`. -/
def itemDiff (existing : List (String × ℤ)) (threshold : ℤ) : RespItem → ℤ
  | RespItem.obj (some agent_id) (some score) =>
      if hasKey existing agent_id then 0 else round_half_up (score * 100) - threshold
  | _ => 0

/-- Per-occurrence diff total: the sum of `itemDiff` over the response list. -/
def diffSum (existing : List (String × ℤ)) (threshold : ℤ)
    (data : List RespItem) : ℤ :=
  (data.map (itemDiff existing threshold)).sum

/-- Modelled from the spec's words (for comparison with the code): the sum of
`(rounded_score − threshold)` taken strictly over the entity identifiers of
the new snapshot that are absent from the snapshot loaded at cycle start.
The new snapshot has one entry per identifier, so this sum is indexed by
identifiers, not by response occurrences. -/
def specTotalDiff (existing : List (String × ℤ)) (threshold : ℤ)
    (newSnap : List (String × ℤ)) : ℤ :=
  ((newSnap.filter (fun p => !hasKey existing p.1)).map (fun p => p.2 - threshold)).sum

/-- State of the snapshot file `agent_id.json`: absent, present but not valid
JSON, or a well-formed agent array as written by `fetch_and_save`. -/
inductive SnapFile where
  | absent : SnapFile
  | invalidJSON : SnapFile
  | valid : List (String × ℤ) → SnapFile
deriving DecidableEq

/-- Embeds `load_existing_agents` (app.py lines 24-30): parse the snapshot
file into an `agent_id → score` dict, returning `{}` when the file is missing
(`FileNotFoundError`) or does not parse (`json.JSONDecodeError`). -/
def load_existing_agents : SnapFile → List (String × ℤ)
  | SnapFile.absent => []
  | SnapFile.invalidJSON => []
  | SnapFile.valid l => l

/-- Embeds `append_log` (app.py lines 33-40) on the parsed rows of
`diff_log.csv`: `none` models an absent file (the header is then written
first); the new `(timestamp, total_diff)` row goes at the end. -/
def append_log (log : Option (List (String × ℤ))) (timestamp : String)
    (total_diff : ℤ) : Option (List (String × ℤ)) :=
  some (log.getD [] ++ [(timestamp, total_diff)])

/-- Digit run of a Python integer literal: nonempty, and a single `_` may
stand between two digits (`int("1_0")` parses, `int("1__0")` and `int("1_")`
raise). -/
def digitsUS : List Char → Bool
  | [] => false
  | [c] => c.isDigit
  | c :: d :: rest =>
      c.isDigit && (if d == '_' then digitsUS rest else digitsUS (d :: rest))

/-- Numeric value of a digit run once underscores are dropped. -/
def digitsVal (cs : List Char) : ℤ :=
  ((cs.filter (fun c => c != '_')).foldl (fun a c => a * 10 + (c.toNat - 48)) 0 : ℕ)

/-- Embeds Python `int(s)` on a decimal string: surrounding whitespace is
ignored, then an optional sign precedes the digits; anything else raises
`ValueError`, modelled as `none`. -/
def parseInt (s : String) : Option ℤ :=
  let cs := ((s.data.dropWhile Char.isWhitespace).reverse.dropWhile
    Char.isWhitespace).reverse
  match cs with
  | '+' :: rest => if digitsUS rest then some (digitsVal rest) else none
  | '-' :: rest => if digitsUS rest then some (-(digitsVal rest)) else none
  | _ => if digitsUS cs then some (digitsVal cs) else none

/-- The persistent state a fetch cycle can touch: the snapshot file
`agent_id.json` and the parsed rows of the diff log `diff_log.csv`
(`none` when the log file does not exist yet). -/
structure St where
  snapshot_file : SnapFile
  diff_log : Option (List (String × ℤ))
deriving DecidableEq

/-- Embeds `fetch_and_save` (app.py lines 43-88). `fetched` is the outcome of
`requests.get` + `raise_for_status` + `response.json()` (any raise is
`Except.error`); `env_threshold` is the `THRESHOLD_SCORE` environment
variable; `snapshot_write_ok` models `open(OUTPUT_FILE, "w")` succeeding
(a failure to open leaves the file as it was); `log_write_ok` models the
append to `LOG_FILE` succeeding. Every raise is caught by the
`except Exception` at the end of the function, which only prints, so a
failed cycle returns whatever state had been written by then. -/
def fetch_and_save (fetched : Except String (List RespItem))
    (env_threshold : Option String) (snapshot_write_ok log_write_ok : Bool)
    (timestamp : String) (st : St) : St :=
  match fetched with
  | Except.error _ => st
  | Except.ok data =>
    match parseInt (env_threshold.getD "0") with
    | none => st
    | some threshold =>
      let existing := load_existing_agents st.snapshot_file
      let r := processItems existing threshold data
      if snapshot_write_ok then
        if log_write_ok then
          ⟨SnapFile.valid r.1, append_log st.diff_log timestamp r.2⟩
        else ⟨SnapFile.valid r.1, st.diff_log⟩
      else st

/-- Seconds elapsed since the top of the current hour, with microseconds,
for a wall-clock instant `HH:minute:second.microsecond`. -/
def nowSecondsPastHour (minute second microsecond : ℕ) : ℚ :=
  ((minute * 60 + second : ℕ) : ℚ) + (microsecond : ℚ) / 1000000

/-- Embeds `sleep_until_next_10min` (app.py lines 91-99): target minute is
`(now.minute // 10 + 1) * 10`; at 60 or more the target is the top of the
next hour; the result is `(next_time - now).total_seconds()`.  Only the
minute/second/microsecond of `now` affect the answer. -/
def sleep_until_next_10min (minute second microsecond : ℕ) : ℚ :=
  let next_minute := (minute / 10 + 1) * 10
  if 60 ≤ next_minute then 3600 - nowSecondsPastHour minute second microsecond
  else ((next_minute * 60 : ℕ) : ℚ) - nowSecondsPastHour minute second microsecond

/-- The JSON object returned by the `/status` route. -/
structure StatusResp where
  status : String
  interval : String
  threshold_score : String
deriving DecidableEq

/-- Embeds the `/status` route (app.py lines 166-174): the threshold field is
`os.getenv("THRESHOLD_SCORE", "not set")`, returned verbatim. -/
def status (env_threshold : Option String) : StatusResp :=
  ⟨"running", "every 10 minutes (exact marks)", env_threshold.getD "not set"⟩

/-- Validity test matching the two skip conditions of the loop: a JSON object
carrying both an `agent_id` and a `final_score`. -/
def isValidItem : RespItem → Bool
  | RespItem.obj (some _) (some _) => true
  | _ => false

/-- Modelled from the spec's words: the mathematically rounded integer of a
nonnegative rational, with exact `.5` ties rounding to the next integer away
from zero (upward, in the nonnegative direction). -/
def spec_round (x : ℚ) : ℤ :=
  if x - ⌊x⌋ < 1/2 then ⌊x⌋ else ⌊x⌋ + 1

lemma round_half_up_nonneg_eq (x : ℚ) (hx : 0 ≤ x) :
    round_half_up x = spec_round x := by
  rw [round_half_up, if_pos hx, spec_round]
  have hfl := Int.floor_le x
  have hfu := Int.lt_floor_add_one x
  by_cases h : x - ⌊x⌋ < 1/2
  · rw [if_pos h]
    rw [Int.floor_eq_iff]
    constructor
    · linarith
    · linarith
  · rw [if_neg h]
    rw [Int.floor_eq_iff]
    constructor
    · push_cast
      linarith
    · push_cast
      linarith

lemma processLoop_snd (existing : List (String × ℤ)) (threshold : ℤ) :
    ∀ (data : List RespItem) (acc : List (String × ℤ)) (tot : ℤ),
      (processLoop existing threshold acc tot data).2 =
        tot + diffSum existing threshold data := by
  intro data
  induction data with
  | nil => intro acc tot; simp [processLoop, diffSum]
  | cons it rest ih =>
    intro acc tot
    cases it with
    | nonDict => simp [processLoop, diffSum, itemDiff, ih, List.map_cons]
    | obj aid sc =>
      cases aid with
      | none => simp [processLoop, diffSum, itemDiff, ih, List.map_cons]
      | some a =>
        cases sc with
        | none => simp [processLoop, diffSum, itemDiff, ih, List.map_cons]
        | some s =>
          simp only [processLoop, diffSum, List.map_cons, List.sum_cons, itemDiff]
          by_cases h : hasKey existing a = true
          · simp only [if_pos h, ih]
            simp [diffSum]
          · simp only [if_neg h, ih]
            simp [diffSum]
            ring

lemma processLoop_fst (existing existing2 : List (String × ℤ)) (t1 t2 : ℤ) :
    ∀ (data : List RespItem) (acc : List (String × ℤ)) (tot tot2 : ℤ),
      (processLoop existing t1 acc tot data).1 =
        (processLoop existing2 t2 acc tot2 data).1 := by
  intro data
  induction data with
  | nil => intro acc tot tot2; simp [processLoop]
  | cons it rest ih =>
    intro acc tot tot2
    cases it with
    | nonDict => simpa [processLoop] using ih acc tot tot2
    | obj aid sc =>
      cases aid with
      | none => simpa [processLoop] using ih acc tot tot2
      | some a =>
        cases sc with
        | none => simpa [processLoop] using ih acc tot tot2
        | some s => simpa only [processLoop] using ih _ _ _

lemma hasKey_dinsert (m : List (String × ℤ)) (k : String) (v : ℤ) (x : String) :
    hasKey (dinsert m k v) x = (hasKey m x || k == x) := by
  unfold dinsert
  by_cases h : hasKey m k = true
  · rw [if_pos h]
    have hmm : hasKey (m.map fun p => if p.1 == k then (k, v) else p) x = hasKey m x := by
      simp only [hasKey, List.any_map]
      congr 1
      funext p
      by_cases hp : p.1 == k
      · have hpk : p.1 = k := by simpa using hp
        simp [Function.comp, hp, hpk]
      · simp [Function.comp, hp]
    rw [hmm]
    by_cases hk : k == x
    · have hkx : k = x := by simpa using hk
      subst hkx
      rw [h, hk]
      simp
    · simp [hk]
  · rw [if_neg h]
    simp [hasKey, List.any_append]

lemma hasKey_processLoop_of_acc (existing : List (String × ℤ)) (threshold : ℤ) :
    ∀ (data : List RespItem) (acc : List (String × ℤ)) (tot : ℤ) (x : String),
      hasKey acc x = true →
      hasKey (processLoop existing threshold acc tot data).1 x = true := by
  intro data
  induction data with
  | nil => intro acc tot x hx; simpa [processLoop] using hx
  | cons it rest ih =>
    intro acc tot x hx
    cases it with
    | nonDict => simpa [processLoop] using ih acc tot x hx
    | obj aid sc =>
      cases aid with
      | none => simpa [processLoop] using ih acc tot x hx
      | some a =>
        cases sc with
        | none => simpa [processLoop] using ih acc tot x hx
        | some s =>
          simp only [processLoop]
          apply ih
          rw [hasKey_dinsert, hx]
          simp

lemma hasKey_processLoop_of_mem (existing : List (String × ℤ)) (threshold : ℤ) :
    ∀ (data : List RespItem) (acc : List (String × ℤ)) (tot : ℤ) (a : String) (s : ℚ),
      RespItem.obj (some a) (some s) ∈ data →
      hasKey (processLoop existing threshold acc tot data).1 a = true := by
  intro data
  induction data with
  | nil => intro acc tot a s hmem; simp at hmem
  | cons it rest ih =>
    intro acc tot a s hmem
    rcases List.mem_cons.mp hmem with heq | hmem2
    · subst heq
      simp only [processLoop]
      apply hasKey_processLoop_of_acc
      rw [hasKey_dinsert]
      simp
    · cases it with
      | nonDict => simpa [processLoop] using ih acc tot a s hmem2
      | obj aid sc =>
        cases aid with
        | none => simpa [processLoop] using ih acc tot a s hmem2
        | some b =>
          cases sc with
          | none => simpa [processLoop] using ih acc tot a s hmem2
          | some sb => simpa only [processLoop] using ih _ _ a s hmem2

lemma diffSum_eq_zero (existing : List (String × ℤ)) (threshold : ℤ) :
    ∀ (data : List RespItem),
      (∀ (a : String) (s : ℚ), RespItem.obj (some a) (some s) ∈ data →
        hasKey existing a = true) →
      diffSum existing threshold data = 0 := by
  intro data
  induction data with
  | nil => intro _; simp [diffSum]
  | cons it rest ih =>
    intro hall
    have hrest : diffSum existing threshold rest = 0 :=
      ih fun a s hm => hall a s (List.mem_cons_of_mem _ hm)
    cases it with
    | nonDict => simpa [diffSum, itemDiff, List.map_cons] using hrest
    | obj aid sc =>
      cases aid with
      | none => simpa [diffSum, itemDiff, List.map_cons] using hrest
      | some a =>
        cases sc with
        | none => simpa [diffSum, itemDiff, List.map_cons] using hrest
        | some s =>
          have ha : hasKey existing a = true := hall a s (List.mem_cons_self _ _)
          simp only [diffSum, List.map_cons, List.sum_cons, itemDiff, if_pos ha]
          simpa [diffSum] using hrest

lemma second_cycle_processItems (existing : List (String × ℤ)) (t1 t2 : ℤ)
    (data : List RespItem) :
    processItems ((processItems existing t1 data).1) t2 data =
      ((processItems existing t1 data).1, 0) := by
  apply Prod.ext
  · exact processLoop_fst _ existing t2 t1 data [] 0 0
  · rw [processItems, processLoop_snd, diffSum_eq_zero, zero_add]
    intro a s hmem
    exact hasKey_processLoop_of_mem existing t1 data [] 0 a s hmem

lemma fetch_and_save_ok (data : List RespItem) (env : Option String) (T : ℤ)
    (h : parseInt (env.getD "0") = some T) (ts : String) (st : St) :
    fetch_and_save (Except.ok data) env true true ts st =
      ⟨SnapFile.valid (processItems (load_existing_agents st.snapshot_file) T data).1,
       append_log st.diff_log ts
         (processItems (load_existing_agents st.snapshot_file) T data).2⟩ := by
  simp [fetch_and_save, h]

lemma fetch_and_save_log_failure (data : List RespItem) (env : Option String) (T : ℤ)
    (h : parseInt (env.getD "0") = some T) (ts : String) (st : St) :
    fetch_and_save (Except.ok data) env true false ts st =
      ⟨SnapFile.valid (processItems (load_existing_agents st.snapshot_file) T data).1,
       st.diff_log⟩ := by
  simp [fetch_and_save, h]

lemma usq_bounds (us : ℕ) (hus : us < 1000000) :
    0 ≤ (us : ℚ) / 1000000 ∧ (us : ℚ) / 1000000 < 1 := by
  constructor
  · positivity
  · rw [div_lt_one (by norm_num)]
    exact_mod_cast hus

/-- C1 (counterexample): the claim reads total_diff as a sum indexed by the
entity identifiers absent from the old snapshot.  On the response
`[{"a": 1.0}, {"a": 1.0}]` against an empty snapshot with threshold 0 the
code adds `100` once per occurrence and logs `200`, while the
identifier-indexed sum of the spec is `100`, so the claim as stated is
false. -/
theorem totalDiff_identifier_sum_counterexample :
    (processItems [] 0 [RespItem.obj (some "a") (some 1),
        RespItem.obj (some "a") (some 1)]).2 = 200 ∧
    specTotalDiff [] 0 (processItems [] 0 [RespItem.obj (some "a") (some 1),
        RespItem.obj (some "a") (some 1)]).1 = 100 ∧
    (200 : ℤ) ≠ 100 := by
  have heval : processItems [] 0 [RespItem.obj (some "a") (some 1),
      RespItem.obj (some "a") (some 1)] = ([("a", 100)], 200) := by
    simp [processItems, processLoop, dinsert, hasKey]
    norm_num [round_half_up]
  rw [heval]
  refine ⟨rfl, ?_, by decide⟩
  simp [specTotalDiff, hasKey]

/-- C1 (amended): the total_diff of a cycle equals the sum of
`(rounded_score − threshold)` over the valid response elements, one
contribution per occurrence, where an element whose identifier is present in
the snapshot loaded at cycle start contributes nothing regardless of its
score. -/
theorem totalDiff_eq_occurrence_sum :
    ∀ (existing : List (String × ℤ)) (threshold : ℤ) (data : List RespItem),
      (processItems existing threshold data).2 = diffSum existing threshold data ∧
      ∀ (a : String) (s : ℚ), hasKey existing a = true →
        itemDiff existing threshold (RespItem.obj (some a) (some s)) = 0 := by
  intro existing threshold data
  constructor
  · rw [processItems, processLoop_snd, zero_add]
  · intro a s ha
    simp [itemDiff, ha]

/-- C1 (witness for the amended theorem): instantiation on a snapshot holding
`a` and a response whose element carries the already-seen identifier `a`. -/
theorem totalDiff_eq_occurrence_sum_witness :
    (processItems [("a", 5)] 3 [RespItem.nonDict]).2 =
      diffSum [("a", 5)] 3 [RespItem.nonDict] ∧
    itemDiff [("a", 5)] 3 (RespItem.obj (some "a") (some 2)) = 0 :=
  ⟨(totalDiff_eq_occurrence_sum [("a", 5)] 3 [RespItem.nonDict]).1,
   (totalDiff_eq_occurrence_sum [("a", 5)] 3 [RespItem.nonDict]).2 "a" 2 (by simp [hasKey])⟩

/-- C2: for every score `s` in `[0, 100]`, `round_half_up (s * 100)` is the
mathematically rounded integer of `s * 100` with exact `.5` ties rounding
away from zero (upward, as the value is nonnegative); in particular
`round_half_up (12.345 * 100) = 1235`. -/
theorem round_half_up_spec_agreement :
    (∀ s : ℚ, 0 ≤ s → s ≤ 100 → round_half_up (s * 100) = spec_round (s * 100)) ∧
    round_half_up (12.345 * 100) = 1235 := by
  constructor
  · intro s hs0 _
    exact round_half_up_nonneg_eq _ (by positivity)
  · norm_num [round_half_up]

/-- C2 (witness): the agreement instantiated at the tie `s = 1/2`, where
`s * 100 = 50` is produced by rounding `50` exactly. -/
theorem round_half_up_spec_agreement_witness :
    round_half_up ((1/2 : ℚ) * 100) = spec_round ((1/2 : ℚ) * 100) ∧
    round_half_up (12.345 * 100) = 1235 :=
  ⟨round_half_up_spec_agreement.1 (1/2) (by norm_num) (by norm_num),
   round_half_up_spec_agreement.2⟩

/-- C3 (counterexample): an I/O failure while appending the log is an
exception raised during the cycle, yet the snapshot file has already been
overwritten by then, so the prior snapshot is not left unchanged: starting
from snapshot `{"a": 5}` and log `[("t0", 1)]`, a cycle fetching `{"b": 1.0}`
whose log append fails ends with snapshot `{"b": 100}` (the log itself gains
no entry). -/
theorem cycle_log_failure_partial_update :
    fetch_and_save (Except.ok [RespItem.obj (some "b") (some 1)]) (some "0") true false "t1"
        ⟨SnapFile.valid [("a", 5)], some [("t0", 1)]⟩ =
      ⟨SnapFile.valid [("b", 100)], some [("t0", 1)]⟩ ∧
    SnapFile.valid [("b", (100 : ℤ))] ≠ SnapFile.valid [("a", 5)] := by
  constructor
  · rw [fetch_and_save_log_failure _ (some "0") 0 (by rfl)]
    have heval : processItems [("a", 5)] 0 [RespItem.obj (some "b") (some 1)] =
        ([("b", 100)], 100) := by
      simp [processItems, processLoop, dinsert, hasKey]
      norm_num [round_half_up]
    simp [load_existing_agents, heval]
  · decide

/-- C3 (amended): exceptions raised before the snapshot file is opened for
writing (network failure, timeout, malformed JSON — all modelled by
`Except.error` —, an unparsable threshold, or a failure to open the snapshot
file) leave the snapshot and the log completely unchanged and produce no log
entry; an I/O failure while appending the log also leaves the log unchanged
with no new entry, but the snapshot has by then already been replaced, so the
cycle is not atomic across its two writes. -/
theorem cycle_failure_containment :
    ∀ (env : Option String) (w l : Bool) (ts : String) (st : St),
      (∀ msg : String, fetch_and_save (Except.error msg) env w l ts st = st) ∧
      (∀ data : List RespItem, parseInt (env.getD "0") = none →
        fetch_and_save (Except.ok data) env w l ts st = st) ∧
      (∀ data : List RespItem, fetch_and_save (Except.ok data) env false l ts st = st) ∧
      (∀ (data : List RespItem) (T : ℤ), parseInt (env.getD "0") = some T →
        (fetch_and_save (Except.ok data) env true false ts st).diff_log = st.diff_log ∧
        (fetch_and_save (Except.ok data) env true false ts st).snapshot_file =
          SnapFile.valid
            (processItems (load_existing_agents st.snapshot_file) T data).1) := by
  intro env w l ts st
  refine ⟨fun msg => rfl, fun data h => ?_, fun data => ?_, fun data T h => ?_⟩
  · simp [fetch_and_save, h]
  · cases hp : parseInt (env.getD "0") with
    | none => simp [fetch_and_save, hp]
    | some T => simp [fetch_and_save, hp]
  · rw [fetch_and_save_log_failure data env T h ts st]
    exact ⟨rfl, rfl⟩

/-- C3 (witness for the amended theorem): a network error, an unparsable
threshold, and a log-append failure, each on concrete state. -/
theorem cycle_failure_containment_witness :
    fetch_and_save (Except.error "timeout") (some "0") true true "t" ⟨SnapFile.absent, none⟩
        = ⟨SnapFile.absent, none⟩ ∧
    fetch_and_save (Except.ok []) (some "abc") true true "t" ⟨SnapFile.absent, none⟩
        = ⟨SnapFile.absent, none⟩ ∧
    (fetch_and_save (Except.ok []) (some "0") true false "t"
        ⟨SnapFile.valid [("a", 5)], some []⟩).diff_log = some [] :=
  ⟨(cycle_failure_containment (some "0") true true "t" ⟨SnapFile.absent, none⟩).1 "timeout",
   (cycle_failure_containment (some "abc") true true "t" ⟨SnapFile.absent, none⟩).2.1 []
     (by rfl),
   ((cycle_failure_containment (some "0") true false "t"
     ⟨SnapFile.valid [("a", 5)], some []⟩).2.2.2 [] 0 (by rfl)).1⟩

/-- C4 (counterexample): at exactly `HH:30:00` the scheduler computes the mark
60 minutes past the last boundary rule, returning exactly `600` seconds —
not a value strictly less than `600` as the claim states. -/
theorem sleep_at_half_hour_not_lt_600 :
    sleep_until_next_10min 30 0 0 = 600 ∧ ¬ sleep_until_next_10min 30 0 0 < 600 := by
  have h : sleep_until_next_10min 30 0 0 = 600 := by
    norm_num [sleep_until_next_10min, nowSecondsPastHour]
  exact ⟨h, by rw [h]; exact lt_irrefl 600⟩

/-- C4 (amended): called at exactly `HH:30:00`, `sleep_until_next_10min`
returns exactly 600 seconds (non-negative and at most 600, but not strictly
less); in general it returns the delay to the next boundary whose
seconds-past-the-hour are a multiple of 600 (that is, whose minute-of-hour is
a multiple of 10) and that lies strictly in the future. -/
theorem sleep_boundary_rule :
    sleep_until_next_10min 30 0 0 = 600 ∧
    ∀ minute second microsecond : ℕ,
      minute < 60 → second < 60 → microsecond < 1000000 →
      ∃ B : ℕ, B % 600 = 0 ∧
        nowSecondsPastHour minute second microsecond < (B : ℚ) ∧
        sleep_until_next_10min minute second microsecond =
          (B : ℚ) - nowSecondsPastHour minute second microsecond ∧
        ∀ j : ℕ, j % 600 = 0 →
          nowSecondsPastHour minute second microsecond < (j : ℚ) → B ≤ j := by
  constructor
  · norm_num [sleep_until_next_10min, nowSecondsPastHour]
  · intro m s us hm hs hus
    obtain ⟨hu0, hu1⟩ := usq_bounds us hus
    refine ⟨(m / 10 + 1) * 10 * 60, by omega, ?_, ?_, ?_⟩
    · have key1 : m * 60 + s + 1 ≤ (m / 10 + 1) * 10 * 60 := by omega
      have key1q : ((m * 60 + s : ℕ) : ℚ) + 1 ≤ (((m / 10 + 1) * 10 * 60 : ℕ) : ℚ) := by
        exact_mod_cast key1
      rw [nowSecondsPastHour]
      linarith
    · simp only [sleep_until_next_10min]
      by_cases h : 60 ≤ (m / 10 + 1) * 10
      · have h36 : (m / 10 + 1) * 10 * 60 = 3600 := by omega
        rw [if_pos h, h36]
        norm_num
      · rw [if_neg h]
    · intro j hj hlt
      have hge : ((m * 60 + s : ℕ) : ℚ) ≤ nowSecondsPastHour m s us := by
        rw [nowSecondsPastHour]
        linarith
      have hq : ((m * 60 + s : ℕ) : ℚ) < (j : ℚ) := lt_of_le_of_lt hge hlt
      have hnat : m * 60 + s < j := by exact_mod_cast hq
      omega

/-- C4 (witness for the amended theorem): at `HH:30:00` the next strictly
future boundary is `HH:40:00`, 2400 seconds past the hour. -/
theorem sleep_boundary_rule_witness :
    sleep_until_next_10min 30 0 0 = 600 ∧
    ∃ B : ℕ, B % 600 = 0 ∧ nowSecondsPastHour 30 0 0 < (B : ℚ) ∧
      sleep_until_next_10min 30 0 0 = (B : ℚ) - nowSecondsPastHour 30 0 0 ∧
      ∀ j : ℕ, j % 600 = 0 → nowSecondsPastHour 30 0 0 < (j : ℚ) → B ≤ j :=
  ⟨sleep_boundary_rule.1,
   sleep_boundary_rule.2 30 0 0 (by norm_num) (by norm_num) (by norm_num)⟩

/-- C9: for every wall-clock minute, second and microsecond,
`sleep_until_next_10min` returns a strictly positive delay of at most 600
seconds, so the background loop never computes a negative sleep and never
sleeps longer than one full interval. -/
theorem sleep_positive_le_600 (minute second microsecond : ℕ)
    (hm : minute < 60) (hs : second < 60) (hus : microsecond < 1000000) :
    0 < sleep_until_next_10min minute second microsecond ∧
    sleep_until_next_10min minute second microsecond ≤ 600 := by
  obtain ⟨hu0, hu1⟩ := usq_bounds microsecond hus
  simp only [sleep_until_next_10min, nowSecondsPastHour]
  by_cases h : 60 ≤ (minute / 10 + 1) * 10
  · rw [if_pos h]
    have k1 : (3000 : ℕ) ≤ minute * 60 + second := by omega
    have k2 : minute * 60 + second ≤ 3599 := by omega
    have k1q : (3000 : ℚ) ≤ ((minute * 60 + second : ℕ) : ℚ) := by exact_mod_cast k1
    have k2q : ((minute * 60 + second : ℕ) : ℚ) ≤ 3599 := by exact_mod_cast k2
    constructor
    · linarith
    · linarith
  · rw [if_neg h]
    have k1 : minute * 60 + second + 1 ≤ (minute / 10 + 1) * 10 * 60 := by omega
    have k2 : (minute / 10 + 1) * 10 * 60 ≤ minute * 60 + second + 600 := by omega
    have k1q : ((minute * 60 + second : ℕ) : ℚ) + 1 ≤
        (((minute / 10 + 1) * 10 * 60 : ℕ) : ℚ) := by exact_mod_cast k1
    have k2q : (((minute / 10 + 1) * 10 * 60 : ℕ) : ℚ) ≤
        ((minute * 60 + second : ℕ) : ℚ) + 600 := by exact_mod_cast k2
    constructor
    · linarith
    · linarith

/-- C9 (witness): at the top of the hour the sleep is exactly 600 seconds. -/
theorem sleep_positive_le_600_witness :
    0 < sleep_until_next_10min 0 0 0 ∧ sleep_until_next_10min 0 0 0 ≤ 600 :=
  sleep_positive_le_600 0 0 0 (by norm_num) (by norm_num) (by norm_num)

/-- C5: running a second fetch cycle on the same response (same agents, same
scores) as the previous successful cycle — whatever the thresholds of the two
cycles — leaves the snapshot file unchanged and appends a log entry whose
total_diff is 0, since no entity is new the second time. -/
theorem second_cycle_no_diff (env1 env2 : Option String) (t1 t2 : ℤ)
    (data : List RespItem) (ts1 ts2 : String) (st : St)
    (h1 : parseInt (env1.getD "0") = some t1)
    (h2 : parseInt (env2.getD "0") = some t2) :
    (fetch_and_save (Except.ok data) env2 true true ts2
        (fetch_and_save (Except.ok data) env1 true true ts1 st)).snapshot_file =
      (fetch_and_save (Except.ok data) env1 true true ts1 st).snapshot_file ∧
    (fetch_and_save (Except.ok data) env2 true true ts2
        (fetch_and_save (Except.ok data) env1 true true ts1 st)).diff_log =
      append_log (fetch_and_save (Except.ok data) env1 true true ts1 st).diff_log ts2 0 := by
  rw [fetch_and_save_ok data env1 t1 h1 ts1 st]
  rw [fetch_and_save_ok data env2 t2 h2 ts2 _]
  constructor
  · simp [load_existing_agents, second_cycle_processItems]
  · simp [load_existing_agents, second_cycle_processItems]

/-- C5 (witness): two identical cycles fetching `{"a": 1.0}` from an absent
snapshot and absent log, with threshold 0. -/
theorem second_cycle_no_diff_witness :
    parseInt ((some "0" : Option String).getD "0") = some 0 ∧
    ((fetch_and_save (Except.ok [RespItem.obj (some "a") (some 1)]) (some "0") true true "t2"
        (fetch_and_save (Except.ok [RespItem.obj (some "a") (some 1)]) (some "0") true true
          "t1" ⟨SnapFile.absent, none⟩)).snapshot_file =
      (fetch_and_save (Except.ok [RespItem.obj (some "a") (some 1)]) (some "0") true true
          "t1" ⟨SnapFile.absent, none⟩).snapshot_file ∧
     (fetch_and_save (Except.ok [RespItem.obj (some "a") (some 1)]) (some "0") true true "t2"
        (fetch_and_save (Except.ok [RespItem.obj (some "a") (some 1)]) (some "0") true true
          "t1" ⟨SnapFile.absent, none⟩)).diff_log =
      append_log (fetch_and_save (Except.ok [RespItem.obj (some "a") (some 1)]) (some "0")
          true true "t1" ⟨SnapFile.absent, none⟩).diff_log "t2" 0) :=
  ⟨rfl, second_cycle_no_diff (some "0") (some "0") 0 0 [RespItem.obj (some "a") (some 1)]
    "t1" "t2" ⟨SnapFile.absent, none⟩ rfl rfl⟩

/-- C6: from an empty previous snapshot, the response
`[{"agent_id": "a", "final_score": 0.50}, {"agent_id": "b", "final_score": 0.10}]`
with threshold 10 produces the snapshot `{"a": 50, "b": 10}` and logs
total_diff `(50 - 10) + (10 - 10) = 40`. -/
theorem empty_snapshot_example_cycle :
    fetch_and_save (Except.ok [RespItem.obj (some "a") (some 0.50),
        RespItem.obj (some "b") (some 0.10)]) (some "10") true true "ts"
      ⟨SnapFile.valid [], some []⟩ =
      ⟨SnapFile.valid [("a", 50), ("b", 10)], some [("ts", 40)]⟩ := by
  rw [fetch_and_save_ok _ (some "10") 10 (by rfl)]
  have heval : processItems [] 10 [RespItem.obj (some "a") (some 0.50),
      RespItem.obj (some "b") (some 0.10)] = ([("a", 50), ("b", 10)], 40) := by
    simp [processItems, processLoop, dinsert, hasKey]
    norm_num [round_half_up]
  simp [load_existing_agents, heval, append_log]

lemma processLoop_filter (existing : List (String × ℤ)) (threshold : ℤ) :
    ∀ (data : List RespItem) (acc : List (String × ℤ)) (tot : ℤ),
      processLoop existing threshold acc tot (data.filter isValidItem) =
        processLoop existing threshold acc tot data := by
  intro data
  induction data with
  | nil => intro acc tot; rfl
  | cons it rest ih =>
    intro acc tot
    cases it with
    | nonDict => simpa [List.filter_cons, isValidItem, processLoop] using ih acc tot
    | obj aid sc =>
      cases aid with
      | none => simpa [List.filter_cons, isValidItem, processLoop] using ih acc tot
      | some a =>
        cases sc with
        | none => simpa [List.filter_cons, isValidItem, processLoop] using ih acc tot
        | some s =>
          have hval : isValidItem (RespItem.obj (some a) (some s)) = true := rfl
          rw [List.filter_cons_of_pos hval]
          simp only [processLoop]
          exact ih _ _

/-- C7: response elements that are not objects, or lack the `agent_id` or the
`final_score` field, are skipped: filtering them out of the response changes
neither the snapshot/total pair computed by the loop nor the outcome of the
whole cycle, which completes normally. -/
theorem invalid_items_skipped (existing : List (String × ℤ)) (threshold : ℤ)
    (data : List RespItem) :
    processItems existing threshold (data.filter isValidItem) =
      processItems existing threshold data ∧
    ∀ (env : Option String) (w l : Bool) (ts : String) (st : St),
      fetch_and_save (Except.ok (data.filter isValidItem)) env w l ts st =
        fetch_and_save (Except.ok data) env w l ts st := by
  have hcore : ∀ (e : List (String × ℤ)) (T : ℤ),
      processItems e T (data.filter isValidItem) = processItems e T data :=
    fun e T => processLoop_filter e T data [] 0
  refine ⟨hcore existing threshold, ?_⟩
  intro env w l ts st
  cases hp : parseInt (env.getD "0") with
  | none => simp [fetch_and_save, hp]
  | some T => simp [fetch_and_save, hp, hcore]

/-- C8: a missing or unparsable snapshot file loads as the empty mapping
rather than raising, and against an empty mapping every valid response
element is classified as new: each one contributes its full
`round_half_up (score * 100) − threshold` to total_diff. -/
theorem missing_snapshot_treated_empty :
    (load_existing_agents SnapFile.absent = [] ∧
     load_existing_agents SnapFile.invalidJSON = []) ∧
    (∀ (threshold : ℤ) (data : List RespItem),
      (processItems (load_existing_agents SnapFile.absent) threshold data).2 =
        diffSum [] threshold data) ∧
    (∀ (threshold : ℤ) (a : String) (s : ℚ),
      itemDiff [] threshold (RespItem.obj (some a) (some s)) =
        round_half_up (s * 100) - threshold) := by
  refine ⟨⟨rfl, rfl⟩, ?_, ?_⟩
  · intro T data
    simp only [load_existing_agents, processItems]
    rw [processLoop_snd]
    simp
  · intro T a s
    simp [itemDiff, hasKey]

/-- C10: when `THRESHOLD_SCORE` is set to a string that does not parse as an
integer, every fetch cycle — even one whose upstream fetch succeeded — is
abandoned at the `int` conversion with no snapshot or log update, while the
`/status` endpoint still returns the raw string verbatim. -/
theorem bad_threshold_aborts_cycle (tstr : String) (h : parseInt tstr = none)
    (data : List RespItem) (w l : Bool) (ts : String) (st : St) :
    fetch_and_save (Except.ok data) (some tstr) w l ts st = st ∧
    status (some tstr) = ⟨"running", "every 10 minutes (exact marks)", tstr⟩ := by
  constructor
  · have hg : (some tstr : Option String).getD "0" = tstr := rfl
    simp [fetch_and_save, hg, h]
  · rfl

/-- C10 (witness): the unparsable threshold string `"abc"`. -/
theorem bad_threshold_aborts_cycle_witness :
    parseInt "abc" = none ∧
    (fetch_and_save (Except.ok []) (some "abc") true true "t" ⟨SnapFile.absent, none⟩ =
        ⟨SnapFile.absent, none⟩ ∧
     status (some "abc") = ⟨"running", "every 10 minutes (exact marks)", "abc"⟩) :=
  ⟨rfl, bad_threshold_aborts_cycle "abc" rfl [] true true "t" ⟨SnapFile.absent, none⟩⟩
